import Mathlib

/-!
# Verification of the `kursach_5` personal-finance tracker

Shallow embedding of the repository's core module
(`personal_finance/core/services.py`, `forms.py`, `views.py`, `models.py`)
and proofs of the specification's claims about it.

Modelling conventions:
* Django model objects become Lean structures.  `Category` rows are identified
  by their natural key `(name, type, user)`, which the data store keeps unique
  (`unique_together = ('name', 'user', 'type')` in `models.py`), so foreign keys
  to categories are embedded as the category value itself.
* `DecimalField` / Python `Decimal` values become `ℚ` (exact decimal
  arithmetic); `DateField` values become a `PDate` record of numerals.
* Django querysets become `List` filters over an explicit `DB` state record;
  `aggregate(total=Sum('amount'))` returning `None` on an empty queryset is
  modelled by an `Option ℚ` with the source's `or 0` as `Option.getD 0`.
* The `csv` reader/writer pair is abstracted as lists of rows of strings
  (`List (List String)`): `csv.writer.writerow` appends a row, `csv.reader`
  yields the rows back unchanged.
* Raised exceptions become `Except` / `Option` results.
-/

namespace Kursach

/-- Category type tag: `Category.INCOME = 'income'`, `Category.EXPENSE = 'expense'`
in `core/models.py`. -/
inductive CatType where
  | income
  | expense
deriving DecidableEq, Repr

/-- A `Category` row (`core/models.py`): name, income/expense type, owning user.
`created_at` is not observed by any service and is omitted.  The data store's
`unique_together ('name', 'user', 'type')` makes this record the row's identity. -/
structure Category where
  name : String
  ctype : CatType
  user : Nat
deriving DecidableEq, Repr

/-- A calendar date as stored in a Django `DateField` (`datetime.date`). -/
structure PDate where
  year : Nat
  month : Nat
  day : Nat
deriving DecidableEq, Repr

/-- A `Transaction` row (`core/models.py`): owner, decimal amount, category
reference, description, date.  `created_at` is not observed by the services. -/
structure Transaction where
  user : Nat
  amount : ℚ
  category : Category
  description : String
  date : PDate
deriving DecidableEq, Repr

/-- A `Budget` row (`core/models.py`): owner, category reference, decimal
limit, month (stored as a date, intended to be the first day of the month). -/
structure Budget where
  user : Nat
  category : Category
  amount : ℚ
  month : PDate
deriving DecidableEq, Repr

/-- The relational data store holding all three tables. -/
structure DB where
  categories : List Category
  transactions : List Transaction
  budgets : List Budget
deriving DecidableEq, Repr

/-- The empty data store (a fresh account with no rows). -/
def emptyDB : DB := ⟨[], [], []⟩

/-! ## Calendar arithmetic (`datetime.date` operations used by the services) -/

/-- Gregorian leap-year rule, as implemented by Python's `datetime`. -/
def isLeapYear (y : Nat) : Bool :=
  y % 4 = 0 && (y % 100 ≠ 0 || y % 400 = 0)

/-- Number of days in a month, as implemented by Python's `datetime`. -/
def daysInMonth (y m : Nat) : Nat :=
  if m = 2 then (if isLeapYear y then 29 else 28)
  else if m = 4 ∨ m = 6 ∨ m = 9 ∨ m = 11 then 30
  else 31

/-- A `datetime.date` is valid when the month is 1–12 and the day fits the month. -/
def ValidDate (d : PDate) : Prop :=
  1 ≤ d.month ∧ d.month ≤ 12 ∧ 1 ≤ d.day ∧ d.day ≤ daysInMonth d.year d.month

instance (d : PDate) : Decidable (ValidDate d) := by
  unfold ValidDate; infer_instance

/-- `d - date.resolution`: the previous calendar day (`date.resolution` is one day). -/
def predDate (d : PDate) : PDate :=
  if 2 ≤ d.day then ⟨d.year, d.month, d.day - 1⟩
  else if 2 ≤ d.month then ⟨d.year, d.month - 1, daysInMonth d.year (d.month - 1)⟩
  else ⟨d.year - 1, 12, 31⟩

/-- The next calendar day (specification-side inverse of `predDate`). -/
def succDate (d : PDate) : PDate :=
  if d.day < daysInMonth d.year d.month then ⟨d.year, d.month, d.day + 1⟩
  else if d.month < 12 then ⟨d.year, d.month + 1, 1⟩
  else ⟨d.year + 1, 1, 1⟩

/-- Date comparison `a <= b` (lexicographic on year, month, day), as Python
compares `datetime.date` values. -/
def dateLe (a b : PDate) : Prop :=
  a.year < b.year ∨
    (a.year = b.year ∧ (a.month < b.month ∨ (a.month = b.month ∧ a.day ≤ b.day)))

instance (a b : PDate) : Decidable (dateLe a b) := by
  unfold dateLe; infer_instance

/-- `date__range=[s, e]` in a Django filter: `s <= d` and `d <= e`. -/
def inRange (s e d : PDate) : Prop := dateLe s d ∧ dateLe d e

instance (s e d : PDate) : Decidable (inRange s e d) := by
  unfold inRange; infer_instance

/-- `start_date + relativedelta(months=1)` for the dates used by
`get_budget_vs_actual`: move to the next month, clamping the day to the target
month's length (the inputs always have `day = 1`, so the clamp never acts). -/
def addOneMonth (d : PDate) : PDate :=
  if d.month = 12 then ⟨d.year + 1, 1, min d.day (daysInMonth (d.year + 1) 1)⟩
  else ⟨d.year, d.month + 1, min d.day (daysInMonth d.year (d.month + 1))⟩

/-- First day of month `(y, m)`: `date(year, month, 1)`. -/
def firstDayOfMonth (y m : Nat) : PDate := ⟨y, m, 1⟩

/-- Specification-side last day of month `(y, m)`. -/
def lastDayOfMonth (y m : Nat) : PDate := ⟨y, m, daysInMonth y m⟩

/-- First day of the month after `(y, m)`, exactly as `get_monthly_summary`
computes it: `date(year+1, 1, 1)` when `month == 12`, else `date(year, month+1, 1)`. -/
def nextMonthStart (y m : Nat) : PDate :=
  if m = 12 then ⟨y + 1, 1, 1⟩ else ⟨y, m + 1, 1⟩

/-- The end of the month range used by `get_monthly_summary` and
`get_expense_breakdown_by_category`: first day of the next month minus
`date.resolution` (one day). -/
def monthEnd (y m : Nat) : PDate := predDate (nextMonthStart y m)

/-! ## Aggregation services (`core/services.py`) -/

/-- Sum of the amounts of a list of transactions. -/
def sumAmounts (ts : List Transaction) : ℚ := (ts.map (fun t => t.amount)).sum

/-- `aggregate(total=Sum('amount'))['total']`: Django's `Sum` yields `None`
on an empty queryset, otherwise the sum of the column. -/
def aggSumAmount (ts : List Transaction) : Option ℚ :=
  match ts with
  | [] => none
  | _ => some (sumAmounts ts)

/-- Result record of `get_monthly_summary`. -/
structure Summary where
  income : ℚ
  expense : ℚ
  balance : ℚ
deriving DecidableEq, Repr

/-- `get_monthly_summary(user, year, month)` from `core/services.py`:
income and expense totals of the owner's transactions whose date lies in
`[date(y, m, 1), first day of next month - one day]`, split by category type,
with `None`-as-zero (`or 0`), and `balance = income - expense`. -/
def get_monthly_summary (db : DB) (user year month : Nat) : Summary :=
  let start_date := firstDayOfMonth year month
  let end_date := monthEnd year month
  let income := (aggSumAmount (db.transactions.filter (fun t =>
    decide (t.user = user ∧ t.category.ctype = CatType.income ∧
      inRange start_date end_date t.date)))).getD 0
  let expense := (aggSumAmount (db.transactions.filter (fun t =>
    decide (t.user = user ∧ t.category.ctype = CatType.expense ∧
      inRange start_date end_date t.date)))).getD 0
  { income := income, expense := expense, balance := income - expense }

/-- One entry of the `get_budget_vs_actual` result list. -/
structure BudgetEntry where
  category_name : String
  budget_amount : ℚ
  actual_amount : ℚ
  difference : ℚ
  is_over_budget : Bool
deriving DecidableEq, Repr

/-- `get_budget_vs_actual(user, year, month)` from `core/services.py`:
for each budget row of the owner whose `month` equals `date(y, m, 1)`, the
actual total of the owner's transactions in that budget's category over
`[start, start + relativedelta(months=1) - relativedelta(days=1)]`,
with `difference = budget - actual` and `is_over_budget = actual > budget`. -/
def get_budget_vs_actual (db : DB) (user year month : Nat) : List BudgetEntry :=
  let start_date := firstDayOfMonth year month
  let end_date := predDate (addOneMonth start_date)
  let budgets := db.budgets.filter (fun b =>
    decide (b.user = user ∧ b.month = start_date))
  budgets.map (fun b =>
    let actual := (aggSumAmount (db.transactions.filter (fun t =>
      decide (t.user = user ∧ t.category = b.category ∧
        inRange start_date end_date t.date)))).getD 0
    { category_name := b.category.name
      budget_amount := b.amount
      actual_amount := actual
      difference := b.amount - actual
      is_over_budget := decide (b.amount < actual) })

/-! ## Strings: Python `str.strip`, digits, decimal and date formatting/parsing -/

/-- The whitespace characters removed by Python's `str.strip()`
(ASCII subset: space, tab, newline, carriage return, vertical tab, form feed). -/
def pyWhitespace (c : Char) : Bool :=
  c = ' ' || c = '\t' || c = '\n' || c = '\r' || c = '\x0b' || c = '\x0c'

/-- `str.strip()` on a character list: drop whitespace from both ends. -/
def stripList (l : List Char) : List Char :=
  ((l.dropWhile pyWhitespace).reverse.dropWhile pyWhitespace).reverse

/-- Python `str.strip()`. -/
def strip (s : String) : String := String.mk (stripList s.toList)

/-- Python `s or ''` for a string `s` (empty strings are falsy). -/
def pyOr (s d : String) : String := if s = "" then d else s

/-- The decimal digit character for `n` (meaningful for `n ≤ 9`). -/
def digitChar (n : Nat) : Char := Char.ofNat (48 + n)

/-- Numeric value of a digit character. -/
def digitVal (c : Char) : Nat := c.toNat - 48

/-- Decimal digits of `n`, most significant first, with explicit fuel so that
the kernel can evaluate it (the fuel is irrelevant as long as it exceeds `n`). -/
def natToDigitsAux : Nat → Nat → List Char
  | 0, _ => []
  | fuel + 1, n =>
    if n < 10 then [digitChar n]
    else natToDigitsAux fuel (n / 10) ++ [digitChar (n % 10)]

/-- Decimal digit string of `n` (`str(n)` for a nonnegative integer). -/
def natToDigits (n : Nat) : List Char := natToDigitsAux (n + 1) n

/-- Value of a most-significant-first decimal digit string. -/
def digitsToNat (l : List Char) : Nat :=
  l.foldl (fun acc c => acc * 10 + digitVal c) 0

/-- Two-digit zero-padded rendering, as `strftime('%m')` / `%d` produce
(for `n ≥ 10` it is just the digit string). -/
def pad2 (n : Nat) : List Char :=
  if n < 10 then ['0', digitChar n] else natToDigits n

/-- `t.date.strftime('%Y-%m-%d')` as used by the exporter: the year's digits
(4 digits for the years 1000–9999 a `DateField` holds in practice), then
zero-padded month and day. -/
def formatDate (d : PDate) : String :=
  String.mk (natToDigits d.year ++ '-' :: (pad2 d.month ++ '-' :: pad2 d.day))

/-- `date.fromisoformat` on the canonical `YYYY-MM-DD` form (the only form the
exporter produces): ten characters with dashes at positions 4 and 7, digits
elsewhere, 4-digit year at least 1 (`date.MINYEAR`), month 1–12 and a day
valid for the month; anything else is `none`, modelling the raised
`ValueError`. -/
def parseDate (s : String) : Option PDate :=
  let l := s.toList
  if l.length = 10 ∧ l.getD 4 ' ' = '-' ∧ l.getD 7 ' ' = '-' then
    let yd := [l.getD 0 ' ', l.getD 1 ' ', l.getD 2 ' ', l.getD 3 ' ']
    let md := [l.getD 5 ' ', l.getD 6 ' ']
    let dd := [l.getD 8 ' ', l.getD 9 ' ']
    if (yd ++ md ++ dd).all Char.isDigit then
      let y := digitsToNat yd
      let m := digitsToNat md
      let d := digitsToNat dd
      if 1 ≤ y ∧ ValidDate ⟨y, m, d⟩ then some ⟨y, m, d⟩ else none
    else none
  else none

/-- Split a character list at a single decimal point: integer part and
fraction part; `none` when there is more than one point. -/
def splitDot : List Char → Option (List Char × List Char)
  | [] => some ([], [])
  | c :: rest =>
    if c = '.' then
      if rest.any (fun x => decide (x = '.')) then none else some ([], rest)
    else
      match splitDot rest with
      | some (ip, fp) => some (c :: ip, fp)
      | none => none

/-- Unsigned part of Python's `Decimal(str)` constructor restricted to the
plain digits-and-point forms the importer meets (`"12"`, `"12.5"`, `".5"`,
`"12."`); at least one digit is required.  `none` models the raised
`InvalidOperation`. -/
def parseUnsignedDecimal (l : List Char) : Option ℚ :=
  match splitDot l with
  | none => none
  | some (ip, fp) =>
    if (ip ++ fp).all Char.isDigit ∧ ip ++ fp ≠ [] then
      some ((digitsToNat (ip ++ fp) : ℚ) / (10 : ℚ) ^ fp.length)
    else none

/-- `Decimal(amount_str)` restricted to the plain signed decimal forms
(optional leading `-` or `+`, digits, at most one point). -/
def parseAmount (s : String) : Option ℚ :=
  match s.toList with
  | [] => none
  | c :: rest =>
    if c = '-' then (parseUnsignedDecimal rest).map (fun q => -q)
    else if c = '+' then parseUnsignedDecimal rest
    else parseUnsignedDecimal (c :: rest)

/-- Digit string of a scale-2 decimal held as a count of hundredths:
sign, integer part, point, two fraction digits — exactly `str()` of the
`Decimal` a `DecimalField(decimal_places=2)` stores. -/
def formatCents (c : ℤ) : List Char :=
  (if c < 0 then ['-'] else []) ++
    natToDigits (c.natAbs / 100) ++ '.' :: pad2 (c.natAbs % 100)

/-- `str(t.amount)` as `csv.writer` renders the stored scale-2 decimal
(meaningful when `100 * q` is an integer, which `DecimalField(decimal_places=2)`
guarantees for stored rows). -/
def formatAmount (q : ℚ) : String := String.mk (formatCents (100 * q).num)

/-! ## CSV exporter (`export_transactions_to_csv`) -/

/-- The localized type label written to the CSV:
`'Доход' if t.category.type == Category.INCOME else 'Расход'`. -/
def typeLabel : CatType → String
  | CatType.income => "Доход"
  | CatType.expense => "Расход"

/-- The CSV row written for one transaction: date, localized type label,
category name, amount, `description or ''`. -/
def exportRow (t : Transaction) : List String :=
  [formatDate t.date, typeLabel t.category.ctype, t.category.name,
    formatAmount t.amount, pyOr t.description ""]

/-- `export_transactions_to_csv(response, user)` from `core/services.py`,
abstracted over the `csv.writer`: the header row, then one row per transaction
of the owner, ordered by date descending (`order_by('-date')`; ties keep an
arbitrary stable order, here insertion order). -/
def export_transactions_to_csv (db : DB) (user : Nat) : List (List String) :=
  ["Дата", "Тип", "Категория", "Сумма", "Описание"] ::
    (List.insertionSort (fun a b : Transaction => dateLe b.date a.date)
      (db.transactions.filter (fun t => decide (t.user = user)))).map exportRow

/-! ## CSV importer (`import_transactions_from_csv`) -/

/-- The errors `import_transactions_from_csv` can raise: the explicit
`ValidationError`s for an empty file and an unknown type label, and the
uncaught `Decimal` / `date.fromisoformat` exceptions on malformed fields. -/
inductive ImportError where
  | emptyInput
  | unrecognizedType (label : String)
  | parseError
deriving DecidableEq, Repr

/-- `Category.objects.get_or_create(name=..., type=..., user=...)`: return the
existing row with that natural key, or append and return a fresh one. -/
def get_or_create_category (db : DB) (name : String) (ctype : CatType)
    (user : Nat) : DB × Category :=
  match db.categories.find? (fun c =>
      decide (c.name = name ∧ c.ctype = ctype ∧ c.user = user)) with
  | some c => (db, c)
  | none =>
    let c : Category := ⟨name, ctype, user⟩
    ({ db with categories := db.categories ++ [c] }, c)

/-- Outcome of the importer's loop body on one data row. -/
inductive RowResult where
  | skipped
  | inserted (db : DB)
  | failed (e : ImportError)
deriving DecidableEq, Repr

/-- Whether a row outcome is an `unrecognizedType` failure. -/
def RowResult.isUnrecognizedType : RowResult → Bool
  | RowResult.failed (ImportError.unrecognizedType _) => true
  | _ => false

/-- The body of the importer's `for row in reader` loop
(`core/services.py`, `import_transactions_from_csv`): skip blank rows, rows
with fewer than 4 fields and rows with an empty required field after
stripping; fail on an unknown type label; get-or-create the category; parse
amount and date and insert the transaction.  On a parse failure the
whole import aborts (the state already mutated by `get_or_create` is discarded
here; no claim observes the store after a failed import). -/
def processRow (user : Nat) (db : DB) (row : List String) : RowResult :=
  if row = [] ∨ row.all (fun cell => strip cell = "") then RowResult.skipped
  else if row.length < 4 then RowResult.skipped
  else
    let date_str := strip (row.getD 0 "")
    let type_str := strip (row.getD 1 "")
    let category_name := strip (row.getD 2 "")
    let amount_str := strip (row.getD 3 "")
    let description := if 4 < row.length then strip (row.getD 4 "") else ""
    if date_str = "" ∨ type_str = "" ∨ category_name = "" ∨ amount_str = ""
      then RowResult.skipped
    else
      let catTypeOpt : Option CatType :=
        if type_str = "Доход" then some CatType.income
        else if type_str = "Расход" then some CatType.expense
        else none
      match catTypeOpt with
      | none => RowResult.failed (ImportError.unrecognizedType type_str)
      | some cat_type =>
        let created := get_or_create_category db category_name cat_type user
        match parseAmount amount_str, parseDate date_str with
        | some amount, some d =>
          RowResult.inserted { created.1 with
            transactions := created.1.transactions ++
              [⟨user, amount, created.2, description, d⟩] }
        | _, _ => RowResult.failed ImportError.parseError

/-- The importer's loop over the data rows, threading the store and the count
of successfully inserted transactions. -/
def importRows (user : Nat) :
    List (List String) → DB → Nat → Except ImportError (DB × Nat)
  | [], db, count => Except.ok (db, count)
  | row :: rest, db, count =>
    match processRow user db row with
    | RowResult.skipped => importRows user rest db count
    | RowResult.inserted db' => importRows user rest db' (count + 1)
    | RowResult.failed e => Except.error e

/-- `import_transactions_from_csv(file, user)` from `core/services.py`,
abstracted over the `csv.reader`: `next(reader)` on an empty file raises the
empty-input `ValidationError`; otherwise the first row is discarded as the
header and the remaining rows are processed in order. -/
def import_transactions_from_csv (rows : List (List String)) (user : Nat)
    (db : DB) : Except ImportError (DB × Nat) :=
  match rows with
  | [] => Except.error ImportError.emptyInput
  | _header :: rest => importRows user rest db 0

/-! ## Forms and views (`core/forms.py`, `core/views.py`) -/

/-- `TransactionForm.clean_amount` (`core/forms.py`): the form accepts an
amount exactly when it is positive. -/
def clean_amount_accepts (amount : ℚ) : Bool := decide (0 < amount)

/-- `BudgetForm.clean_month` (`core/forms.py`): normalize the submitted date
to the first day of its month (`month.replace(day=1)`). -/
def clean_month (month : PDate) : PDate := { month with day := 1 }

/-- The budget-row key predicate: `filter(user=..., category=..., month=...)`
on the `(owner, category, month)` key the upsert works with. -/
def budgetKey (u : Nat) (cat : Category) (m : PDate) (b : Budget) : Bool :=
  decide (b.user = u ∧ b.category = cat ∧ b.month = m)

/-- Replace the first budget row matching the key with one holding the new
amount (`existing.amount = ...; existing.save()` on `.first()`). -/
def updateFirstBudget (user : Nat) (cat : Category) (m : PDate) (amount : ℚ) :
    List Budget → List Budget
  | [] => []
  | b :: bs =>
    if b.user = user ∧ b.category = cat ∧ b.month = m then
      { b with amount := amount } :: bs
    else b :: updateFirstBudget user cat m amount bs

/-- The POST branch of `budget_list` (`core/views.py`): after
`BudgetForm.clean_month` normalizes the month, look up an existing row with
the same `(user, category, month)`; update its amount if found, else insert. -/
def budget_list_post (db : DB) (user : Nat) (cat : Category) (amount : ℚ)
    (monthInput : PDate) : DB :=
  let m := clean_month monthInput
  match db.budgets.find? (budgetKey user cat m) with
  | some _ => { db with budgets := updateFirstBudget user cat m amount db.budgets }
  | none => { db with budgets := db.budgets ++ [⟨user, cat, amount, m⟩] }

/-! ## Specification-side definitions (from the spec's wording, for comparison) -/

/-- Spec-side income total: sum of the user's transaction amounts with
income-type categories dated within `[first day of month, last day of month]`. -/
def specIncomeTotal (db : DB) (u y m : Nat) : ℚ :=
  sumAmounts (db.transactions.filter (fun t =>
    decide (t.user = u ∧ t.category.ctype = CatType.income ∧
      inRange (firstDayOfMonth y m) (lastDayOfMonth y m) t.date)))

/-- Spec-side expense total: sum of the user's transaction amounts with
expense-type categories dated within `[first day of month, last day of month]`. -/
def specExpenseTotal (db : DB) (u y m : Nat) : ℚ :=
  sumAmounts (db.transactions.filter (fun t =>
    decide (t.user = u ∧ t.category.ctype = CatType.expense ∧
      inRange (firstDayOfMonth y m) (lastDayOfMonth y m) t.date)))

/-- Spec-side expense total of one category over a month: sum of the user's
expense-type transaction amounts in that category dated within the month. -/
def specCategoryExpenseTotal (db : DB) (u y m : Nat) (cat : Category) : ℚ :=
  sumAmounts (db.transactions.filter (fun t =>
    decide (t.user = u ∧ t.category.ctype = CatType.expense ∧ t.category = cat ∧
      inRange (firstDayOfMonth y m) (lastDayOfMonth y m) t.date)))

/-- The budget-vs-actual entry the spec describes for one budget row:
actual is the category's expense total over the month, `difference` is
`budget - actual` and `is_over_budget` holds exactly when `actual > budget`. -/
def specBudgetEntry (db : DB) (u y m : Nat) (b : Budget) : BudgetEntry :=
  let actual := specCategoryExpenseTotal db u y m b.category
  { category_name := b.category.name
    budget_amount := b.amount
    actual_amount := actual
    difference := b.amount - actual
    is_over_budget := decide (b.amount < actual) }

/-- The observable content of a transaction for the CSV round trip:
`(date, type, category name, amount, description)`, with the category's
income/expense type kept alongside its name. -/
def txTuple (t : Transaction) : PDate × CatType × String × ℚ × String :=
  (t.date, t.category.ctype, t.category.name, t.amount, t.description)

/-- A stored transaction the exporter can serialize losslessly: a valid date
with a four-digit year, a scale-2 decimal amount (what
`DecimalField(decimal_places=2)` guarantees), and a nonempty
whitespace-trimmed category name and whitespace-trimmed description (what the
forms and the importer themselves produce). -/
def exportableTx (t : Transaction) : Bool :=
  decide (ValidDate t.date ∧ 1000 ≤ t.date.year ∧ t.date.year ≤ 9999 ∧
    (100 * t.amount).den = 1 ∧ strip t.category.name = t.category.name ∧
    t.category.name ≠ "" ∧ strip t.description = t.description)

/-- The transaction the importer inserts for an exported row of `t` when
the importing account belongs to `u2`. -/
def reimportedTx (u2 : Nat) (t : Transaction) : Transaction :=
  ⟨u2, t.amount, ⟨t.category.name, t.category.ctype, u2⟩, t.description, t.date⟩

/-- Whether an import run succeeded. -/
def importSucceeds (r : Except ImportError (DB × Nat)) : Bool :=
  match r with
  | Except.ok _ => true
  | Except.error _ => false

/-- The multiset of transaction tuples held by the store after an import run
(the empty multiset for a failed run). -/
def importedTuples (r : Except ImportError (DB × Nat)) :
    Multiset (PDate × CatType × String × ℚ × String) :=
  match r with
  | Except.ok (db, _) => (db.transactions.map txTuple : Multiset _)
  | Except.error _ => 0

/-- The spec's §8 example account: income 50000 on 2025-10-05 and expenses
1000 and 500 under "Food" in October 2025. -/
def exampleDB : DB :=
  { categories := [⟨"Salary", CatType.income, 1⟩, ⟨"Food", CatType.expense, 1⟩]
    transactions :=
      [⟨1, 50000, ⟨"Salary", CatType.income, 1⟩, "", ⟨2025, 10, 5⟩⟩,
       ⟨1, 1000, ⟨"Food", CatType.expense, 1⟩, "", ⟨2025, 10, 10⟩⟩,
       ⟨1, 500, ⟨"Food", CatType.expense, 1⟩, "", ⟨2025, 10, 20⟩⟩]
    budgets := [⟨1, ⟨"Food", CatType.expense, 1⟩, 1200, ⟨2025, 10, 1⟩⟩] }

/-- An account whose only transaction falls outside October 2025. -/
def noDataDB : DB :=
  { categories := [⟨"Food", CatType.expense, 1⟩]
    transactions := [⟨1, 42, ⟨"Food", CatType.expense, 1⟩, "", ⟨2025, 9, 30⟩⟩]
    budgets := [] }

/-- Concrete account exhibiting the round-trip failure: one transaction whose
description carries surrounding whitespace, which the importer strips. -/
def rtCounterDB : DB :=
  { categories := [⟨"Food", CatType.expense, 1⟩]
    transactions := [⟨1, 5, ⟨"Food", CatType.expense, 1⟩, " x ", ⟨2025, 10, 5⟩⟩]
    budgets := [] }

/-! ## Calendar lemmas shared by the aggregation claims -/

theorem daysInMonth_pos (y m : Nat) : 1 ≤ daysInMonth y m := by
  unfold daysInMonth
  split
  · split <;> omega
  · split <;> omega

theorem daysInMonth_le_31 (y m : Nat) : daysInMonth y m ≤ 31 := by
  unfold daysInMonth
  split
  · split <;> omega
  · split <;> omega

theorem daysInMonth_twelve (y : Nat) : daysInMonth y 12 = 31 := by
  unfold daysInMonth
  norm_num

theorem monthEnd_eq (y m : Nat) (h1 : 1 ≤ m) (h2 : m ≤ 12) :
    monthEnd y m = lastDayOfMonth y m := by
  unfold monthEnd nextMonthStart predDate lastDayOfMonth
  by_cases hm : m = 12
  · subst hm
    norm_num [daysInMonth_twelve]
  · rw [if_neg hm]
    norm_num
    intro h
    exact absurd h (by omega)

theorem addOneMonth_firstDay (y m : Nat) (h1 : 1 ≤ m) (h2 : m ≤ 12) :
    addOneMonth (firstDayOfMonth y m) = nextMonthStart y m := by
  unfold addOneMonth firstDayOfMonth nextMonthStart
  have h3 := daysInMonth_pos (y + 1) 1
  have h4 := daysInMonth_pos y (m + 1)
  by_cases hm : m = 12
  · subst hm
    norm_num
    omega
  · rw [if_neg hm, if_neg hm]
    norm_num
    omega

theorem succDate_monthEnd (y m : Nat) (h1 : 1 ≤ m) (h2 : m ≤ 12) :
    succDate (monthEnd y m) = nextMonthStart y m := by
  rw [monthEnd_eq y m h1 h2]
  unfold succDate lastDayOfMonth nextMonthStart
  by_cases hm : m = 12
  · subst hm
    norm_num [daysInMonth_twelve]
  · rw [if_neg hm]
    norm_num
    omega

theorem aggSum_getD (ts : List Transaction) :
    (aggSumAmount ts).getD 0 = sumAmounts ts := by
  cases ts <;> simp [aggSumAmount, sumAmounts]

/-- C7: for every year and month 1–12, the month range used by the aggregation
functions is exact.  The end date computed as "first day of next month minus
one day" (`get_monthly_summary`) is the true last day of the month; the
equivalent `relativedelta` computation in `get_budget_vs_actual` agrees; the
successor of the computed end date is the first day of the next month (so the
range misses no day and overlaps none); and for December the end date is
December 31 of the same year. -/
theorem month_range_exact (y m : Nat) (h1 : 1 ≤ m) (h2 : m ≤ 12) :
    monthEnd y m = lastDayOfMonth y m ∧
    predDate (addOneMonth (firstDayOfMonth y m)) = lastDayOfMonth y m ∧
    succDate (monthEnd y m) = nextMonthStart y m ∧
    (m = 12 → monthEnd y m = ⟨y, 12, 31⟩) := by
  refine ⟨monthEnd_eq y m h1 h2, ?_, succDate_monthEnd y m h1 h2, ?_⟩
  · rw [addOneMonth_firstDay y m h1 h2]
    exact monthEnd_eq y m h1 h2
  · intro hm
    subst hm
    rw [monthEnd_eq y 12 h1 h2]
    unfold lastDayOfMonth
    rw [daysInMonth_twelve]

/-- C7 witness at year 2025, month 12. -/
theorem month_range_exact_witness :
    1 ≤ 12 ∧ (12 : Nat) ≤ 12 ∧
      (monthEnd 2025 12 = lastDayOfMonth 2025 12 ∧
       predDate (addOneMonth (firstDayOfMonth 2025 12)) = lastDayOfMonth 2025 12 ∧
       succDate (monthEnd 2025 12) = nextMonthStart 2025 12 ∧
       (12 = 12 → monthEnd 2025 12 = ⟨2025, 12, 31⟩)) :=
  ⟨by norm_num, by norm_num, month_range_exact 2025 12 (by norm_num) (by norm_num)⟩

/-! ## C5, C6: monthly summary -/

/-- C5: `get_monthly_summary` returns exactly the spec's income total (user's
transactions with income-type categories dated within
`[first day of month, last day of month]`), the spec's expense total, and
`balance = income - expense`; in particular the identity
`balance = income - expense` holds for the result. -/
theorem monthly_summary_spec (db : DB) (u y m : Nat) (h1 : 1 ≤ m) (h2 : m ≤ 12) :
    get_monthly_summary db u y m =
      { income := specIncomeTotal db u y m
        expense := specExpenseTotal db u y m
        balance := specIncomeTotal db u y m - specExpenseTotal db u y m } ∧
    (get_monthly_summary db u y m).balance =
      (get_monthly_summary db u y m).income - (get_monthly_summary db u y m).expense := by
  constructor
  · unfold get_monthly_summary specIncomeTotal specExpenseTotal
    rw [monthEnd_eq y m h1 h2]
    simp only [aggSum_getD]
  · unfold get_monthly_summary
    simp

/-- C5 witness: the spec's own example — income 50000 on 2025-10-05, expenses
1000 and 500 in October 2025 give income 50000, expense 1500, balance 48500. -/
theorem monthly_summary_spec_witness :
    (1 : Nat) ≤ 10 ∧ (10 : Nat) ≤ 12 ∧
    (get_monthly_summary exampleDB 1 2025 10 =
      { income := specIncomeTotal exampleDB 1 2025 10
        expense := specExpenseTotal exampleDB 1 2025 10
        balance := specIncomeTotal exampleDB 1 2025 10 -
          specExpenseTotal exampleDB 1 2025 10 } ∧
    (get_monthly_summary exampleDB 1 2025 10).balance =
      (get_monthly_summary exampleDB 1 2025 10).income -
        (get_monthly_summary exampleDB 1 2025 10).expense) ∧
    get_monthly_summary exampleDB 1 2025 10 =
      { income := 50000, expense := 1500, balance := 48500 } :=
  ⟨by norm_num, by norm_num,
    monthly_summary_spec exampleDB 1 2025 10 (by norm_num) (by norm_num),
    by
      norm_num +decide [get_monthly_summary, exampleDB, aggSumAmount, sumAmounts,
        monthEnd, nextMonthStart, predDate, firstDayOfMonth, inRange, dateLe,
        daysInMonth, isLeapYear, List.filter]⟩

/-- C6: with no transactions of the user dated within the month,
`get_monthly_summary` returns all-zero results rather than raising. -/
theorem monthly_summary_no_data (db : DB) (u y m : Nat) (h1 : 1 ≤ m) (h2 : m ≤ 12)
    (hnone : db.transactions.filter (fun t =>
      decide (t.user = u ∧
        inRange (firstDayOfMonth y m) (lastDayOfMonth y m) t.date)) = []) :
    get_monthly_summary db u y m = { income := 0, expense := 0, balance := 0 } := by
  rw [List.filter_eq_nil] at hnone
  unfold get_monthly_summary
  rw [monthEnd_eq y m h1 h2]
  have hi : db.transactions.filter (fun t =>
      decide (t.user = u ∧ t.category.ctype = CatType.income ∧
        inRange (firstDayOfMonth y m) (lastDayOfMonth y m) t.date)) = [] := by
    rw [List.filter_eq_nil]
    intro t ht hdec
    rw [decide_eq_true_eq] at hdec
    exact hnone t ht (by simp only [decide_eq_true_eq]; exact ⟨hdec.1, hdec.2.2⟩)
  have he : db.transactions.filter (fun t =>
      decide (t.user = u ∧ t.category.ctype = CatType.expense ∧
        inRange (firstDayOfMonth y m) (lastDayOfMonth y m) t.date)) = [] := by
    rw [List.filter_eq_nil]
    intro t ht hdec
    rw [decide_eq_true_eq] at hdec
    exact hnone t ht (by simp only [decide_eq_true_eq]; exact ⟨hdec.1, hdec.2.2⟩)
  simp only [hi, he]
  simp [aggSumAmount]

/-- C6 witness: an account with a single out-of-month transaction yields the
all-zero summary for October 2025. -/
theorem monthly_summary_no_data_witness :
    (1 : Nat) ≤ 10 ∧ (10 : Nat) ≤ 12 ∧
    noDataDB.transactions.filter
        (fun t => decide (t.user = 1 ∧
          inRange (firstDayOfMonth 2025 10) (lastDayOfMonth 2025 10) t.date)) = [] ∧
    get_monthly_summary noDataDB 1 2025 10 =
      { income := 0, expense := 0, balance := 0 } :=
  ⟨by norm_num, by norm_num, by decide,
    monthly_summary_no_data noDataDB 1 2025 10 (by norm_num) (by norm_num) (by decide)⟩

/-! ## C2: budget vs actual -/

/-- C2: `get_budget_vs_actual` returns exactly one entry per budget row owned
by the user whose stored month is the first day of the requested month, and
each entry carries the category name, the budget amount, the spec's actual
expense total of that category over the month (`0` when the category has no
transactions in the month, since the total of an empty selection is zero),
`difference = budget - actual` and `is_over_budget ↔ actual > budget`.
Budget rows are the only source of entries, so categories with transactions
but no budget yield no entry, and the function is total (no error).
The hypothesis that every matching budget references an expense-type category
is what `BudgetForm` guarantees (its category choices are restricted to
expense categories). -/
theorem budget_vs_actual_spec (db : DB) (u y m : Nat) (h1 : 1 ≤ m) (h2 : m ≤ 12)
    (hexp : (db.budgets.filter (fun b =>
        decide (b.user = u ∧ b.month = firstDayOfMonth y m))).all
      (fun b => decide (b.category.ctype = CatType.expense)) = true) :
    get_budget_vs_actual db u y m =
      (db.budgets.filter (fun b =>
        decide (b.user = u ∧ b.month = firstDayOfMonth y m))).map
          (specBudgetEntry db u y m) := by
  rw [List.all_eq_true] at hexp
  simp only [get_budget_vs_actual]
  rw [addOneMonth_firstDay y m h1 h2]
  apply List.map_congr_left
  intro b hb
  have hbexp : b.category.ctype = CatType.expense := by
    have := hexp b hb
    rwa [decide_eq_true_eq] at this
  unfold specBudgetEntry specCategoryExpenseTotal
  have hfil : db.transactions.filter (fun t =>
      decide (t.user = u ∧ t.category = b.category ∧
        inRange (firstDayOfMonth y m) (predDate (nextMonthStart y m)) t.date)) =
      db.transactions.filter (fun t =>
      decide (t.user = u ∧ t.category.ctype = CatType.expense ∧ t.category = b.category ∧
        inRange (firstDayOfMonth y m) (lastDayOfMonth y m) t.date)) := by
    apply List.filter_congr
    intro t _
    rw [show predDate (nextMonthStart y m) = lastDayOfMonth y m from
      monthEnd_eq y m h1 h2]
    rcases Decidable.em (t.category = b.category) with hc | hc
    · simp only [decide_eq_decide]
      constructor
      · rintro ⟨hu, _, hr⟩
        exact ⟨hu, by rw [hc]; exact hbexp, hc, hr⟩
      · rintro ⟨hu, _, _, hr⟩
        exact ⟨hu, hc, hr⟩
    · simp only [decide_eq_decide]
      constructor
      · rintro ⟨_, hc', _⟩
        exact absurd hc' hc
      · rintro ⟨_, _, hc', _⟩
        exact absurd hc' hc
  rw [hfil, aggSum_getD]

/-- C2 witness: the example account (budget 1200 for "Food" in October 2025,
expenses 1500) yields the single spec entry, which is over budget. -/
theorem budget_vs_actual_spec_witness :
    (1 : Nat) ≤ 10 ∧ (10 : Nat) ≤ 12 ∧
    (exampleDB.budgets.filter (fun b =>
        decide (b.user = 1 ∧ b.month = firstDayOfMonth 2025 10))).all
      (fun b => decide (b.category.ctype = CatType.expense)) = true ∧
    get_budget_vs_actual exampleDB 1 2025 10 =
      (exampleDB.budgets.filter (fun b =>
        decide (b.user = 1 ∧ b.month = firstDayOfMonth 2025 10))).map
          (specBudgetEntry exampleDB 1 2025 10) ∧
    get_budget_vs_actual exampleDB 1 2025 10 =
      [{ category_name := "Food", budget_amount := 1200, actual_amount := 1500,
         difference := -300, is_over_budget := true }] :=
  ⟨by norm_num, by norm_num, by decide,
    budget_vs_actual_spec exampleDB 1 2025 10 (by norm_num) (by norm_num) (by decide),
    by
      norm_num +decide [get_budget_vs_actual, exampleDB, aggSumAmount, sumAmounts,
        predDate, addOneMonth, firstDayOfMonth, inRange, dateLe, daysInMonth,
        isLeapYear, List.filter]⟩

/-! ## C4: budget upsert -/

theorem updateFirstBudget_filter (u : Nat) (cat : Category) (m : PDate) (a : ℚ) :
    ∀ l : List Budget, l.countP (budgetKey u cat m) = 1 →
      (updateFirstBudget u cat m a l).filter (budgetKey u cat m) = [⟨u, cat, a, m⟩]
  | [], h => by simp at h
  | b :: bs, h => by
    unfold updateFirstBudget
    by_cases hb : b.user = u ∧ b.category = cat ∧ b.month = m
    · rw [if_pos hb]
      have hkey : budgetKey u cat m { b with amount := a } = true := by
        unfold budgetKey
        rw [decide_eq_true_eq]
        exact hb
      have hbs : bs.countP (budgetKey u cat m) = 0 := by
        have hkb : budgetKey u cat m b = true := by
          unfold budgetKey
          rw [decide_eq_true_eq]
          exact hb
        rw [List.countP_cons, hkb] at h
        simp at h
        simpa using h
      have hfil : bs.filter (budgetKey u cat m) = [] := by
        rw [← List.length_eq_zero, ← List.countP_eq_length_filter]
        exact hbs
      rw [List.filter_cons_of_pos hkey, hfil]
      obtain ⟨h1, h2, h3⟩ := hb
      simp [h1, h2, h3]
    · rw [if_neg hb]
      have hkey : budgetKey u cat m b = false := by
        unfold budgetKey
        simp only [decide_eq_false_iff_not]
        exact hb
      have hbs : bs.countP (budgetKey u cat m) = 1 := by
        rw [List.countP_cons, hkey] at h
        simp at h
        omega
      rw [List.filter_cons_of_neg (by rw [hkey]; exact Bool.false_ne_true)]
      exact updateFirstBudget_filter u cat m a bs hbs

theorem updateFirstBudget_countP_month (u : Nat) (cat : Category) (m : PDate) (a : ℚ)
    (p : PDate → Bool) :
    ∀ l : List Budget,
      (updateFirstBudget u cat m a l).countP (fun b => p b.month) =
        l.countP (fun b => p b.month)
  | [] => rfl
  | b :: bs => by
    unfold updateFirstBudget
    by_cases hb : b.user = u ∧ b.category = cat ∧ b.month = m
    · rw [if_pos hb]
      simp [List.countP_cons]
    · rw [if_neg hb]
      simp only [List.countP_cons]
      rw [updateFirstBudget_countP_month u cat m a p bs]

/-- One POST to `budget_list` leaves exactly one row for the normalized key,
holding the submitted amount, provided the store held at most one row for
that key (its uniqueness constraint). -/
theorem budget_post_filter (db : DB) (u : Nat) (cat : Category) (a : ℚ) (dIn : PDate)
    (h : db.budgets.countP (budgetKey u cat (clean_month dIn)) ≤ 1) :
    (budget_list_post db u cat a dIn).budgets.filter
      (budgetKey u cat (clean_month dIn)) = [⟨u, cat, a, clean_month dIn⟩] := by
  unfold budget_list_post
  cases hf : db.budgets.find? (budgetKey u cat (clean_month dIn)) with
  | none =>
    simp only [hf]
    rw [List.filter_append]
    have hnil : db.budgets.filter (budgetKey u cat (clean_month dIn)) = [] := by
      rw [List.filter_eq_nil_iff]
      intro b hb
      exact List.find?_eq_none.mp hf b hb
    rw [hnil]
    have : budgetKey u cat (clean_month dIn) ⟨u, cat, a, clean_month dIn⟩ = true := by
      unfold budgetKey
      simp
    simp [this]
  | some b0 =>
    simp only [hf]
    apply updateFirstBudget_filter
    have hmem := List.mem_of_find?_eq_some hf
    have hkey := List.find?_some hf
    have : 0 < db.budgets.countP (budgetKey u cat (clean_month dIn)) :=
      List.countP_pos.mpr ⟨b0, hmem, hkey⟩
    omega

/-- C4: submitting a budget twice for the same `(owner, category, month)` key
(the two submissions may carry different days of the month and different
amounts) leaves exactly one budget row for the normalized key, holding the
second amount, with the stored month normalized to day 1; moreover a write
never adds a row whose stored month-day differs from 1 (the count of such
rows is unchanged by a POST).  The hypothesis is the store's uniqueness
invariant on the key. -/
theorem budget_upsert_idempotent (db : DB) (u : Nat) (cat : Category)
    (a1 a2 : ℚ) (d1 d2 : PDate) (hy : d2.year = d1.year) (hm : d2.month = d1.month)
    (huniq : db.budgets.countP (budgetKey u cat (clean_month d1)) ≤ 1) :
    (budget_list_post (budget_list_post db u cat a1 d1) u cat a2 d2).budgets.filter
      (budgetKey u cat (clean_month d1)) =
      [⟨u, cat, a2, ⟨d1.year, d1.month, 1⟩⟩] ∧
    (budget_list_post db u cat a1 d1).budgets.countP
        (fun b => decide (b.month.day ≠ 1)) =
      db.budgets.countP (fun b => decide (b.month.day ≠ 1)) := by
  have e2 : clean_month d2 = clean_month d1 := by
    unfold clean_month
    rw [show ({ d2 with day := 1 } : PDate) = ⟨d2.year, d2.month, 1⟩ from rfl,
      show ({ d1 with day := 1 } : PDate) = ⟨d1.year, d1.month, 1⟩ from rfl, hy, hm]
  constructor
  · have step1 := budget_post_filter db u cat a1 d1 huniq
    have hcount1 : (budget_list_post db u cat a1 d1).budgets.countP
        (budgetKey u cat (clean_month d1)) = 1 := by
      rw [List.countP_eq_length_filter, step1]
      rfl
    have step2 := budget_post_filter (budget_list_post db u cat a1 d1) u cat a2 d2
      (by rw [e2, hcount1])
    rw [e2] at step2
    rw [step2]
    rfl
  · unfold budget_list_post
    cases hf : db.budgets.find? (budgetKey u cat (clean_month d1)) with
    | none =>
      simp only [hf]
      rw [List.countP_append]
      have : (decide ((clean_month d1).day ≠ 1)) = false := by
        simp [clean_month]
      simp [this, clean_month]
    | some b0 =>
      simp only [hf]
      exact updateFirstBudget_countP_month u cat (clean_month d1) a1
        (fun md => decide (md.day ≠ 1)) db.budgets

/-- C4 witness: two submissions for October 2025 with days 15 and 20 and
amounts 100 then 200 leave the single row `(user 1, Food, 200, 2025-10-01)`. -/
theorem budget_upsert_idempotent_witness :
    (⟨2025, 10, 20⟩ : PDate).year = (⟨2025, 10, 15⟩ : PDate).year ∧
    (⟨2025, 10, 20⟩ : PDate).month = (⟨2025, 10, 15⟩ : PDate).month ∧
    emptyDB.budgets.countP
      (budgetKey 1 ⟨"Food", CatType.expense, 1⟩ (clean_month ⟨2025, 10, 15⟩)) ≤ 1 ∧
    (budget_list_post
        (budget_list_post emptyDB 1 ⟨"Food", CatType.expense, 1⟩ 100 ⟨2025, 10, 15⟩)
        1 ⟨"Food", CatType.expense, 1⟩ 200 ⟨2025, 10, 20⟩).budgets.filter
      (budgetKey 1 ⟨"Food", CatType.expense, 1⟩ (clean_month ⟨2025, 10, 15⟩)) =
      [⟨1, ⟨"Food", CatType.expense, 1⟩, 200, ⟨2025, 10, 1⟩⟩] ∧
    (budget_list_post emptyDB 1 ⟨"Food", CatType.expense, 1⟩ 100 ⟨2025, 10, 15⟩).budgets.countP
        (fun b => decide (b.month.day ≠ 1)) =
      emptyDB.budgets.countP (fun b => decide (b.month.day ≠ 1)) :=
  ⟨rfl, rfl, by decide,
    (budget_upsert_idempotent emptyDB 1 ⟨"Food", CatType.expense, 1⟩ 100 200
      ⟨2025, 10, 15⟩ ⟨2025, 10, 20⟩ rfl rfl (by decide)).1,
    (budget_upsert_idempotent emptyDB 1 ⟨"Food", CatType.expense, 1⟩ 100 200
      ⟨2025, 10, 15⟩ ⟨2025, 10, 20⟩ rfl rfl (by decide)).2⟩

/-! ## C3, C8, C9, C10: the importer's row handling -/

theorem processRow_ne_emptyInput (u : Nat) (db : DB) (row : List String) :
    processRow u db row ≠ RowResult.failed ImportError.emptyInput := by
  intro hcontra
  simp only [processRow] at hcontra
  repeat' split at hcontra
  all_goals simp at hcontra

theorem importRows_ne_emptyInput (u : Nat) :
    ∀ (rows : List (List String)) (db : DB) (count : Nat),
      importRows u rows db count ≠ Except.error ImportError.emptyInput
  | [], db, count => by simp [importRows]
  | row :: rest, db, count => by
    unfold importRows
    cases hpr : processRow u db row with
    | skipped => exact importRows_ne_emptyInput u rest db count
    | inserted db' => exact importRows_ne_emptyInput u rest db' (count + 1)
    | failed e =>
      intro hcontra
      rw [Except.error.injEq] at hcontra
      subst hcontra
      exact processRow_ne_emptyInput u db row hpr

/-- C3: the import fails with the empty-input error exactly when the file has
no rows, and the first row of a non-empty file is consumed as a header — the
result never depends on its contents, so it is never parsed as data. -/
theorem import_empty_input_and_header (rows : List (List String)) (u : Nat) (db : DB) :
    (import_transactions_from_csv rows u db = Except.error ImportError.emptyInput ↔
      rows = []) ∧
    (∀ h1 h2 : List String, ∀ rest : List (List String),
      import_transactions_from_csv (h1 :: rest) u db =
        import_transactions_from_csv (h2 :: rest) u db) := by
  constructor
  · cases rows with
    | nil => simp [import_transactions_from_csv]
    | cons r rs =>
      simp only [import_transactions_from_csv]
      constructor
      · intro hcontra
        exact absurd hcontra (importRows_ne_emptyInput u rs db 0)
      · intro hcontra
        exact absurd hcontra (List.cons_ne_nil r rs)
  · intro h1 h2 rest
    rfl

/-- C8: a data row that is fully blank, has fewer than 4 fields, or whose
date, type, category or amount field is empty after trimming is skipped:
processing it leaves the store, the count and the rest of the import exactly
as if the row were absent — no error, no insertion, no count change. -/
theorem import_skips_malformed (u : Nat) (db : DB) (row : List String)
    (rest : List (List String)) (count : Nat)
    (h : (row.all fun cell => strip cell = "") = true ∨ row.length < 4 ∨
      strip (row.getD 0 "") = "" ∨ strip (row.getD 1 "") = "" ∨
      strip (row.getD 2 "") = "" ∨ strip (row.getD 3 "") = "") :
    importRows u (row :: rest) db count = importRows u rest db count := by
  have hskip : processRow u db row = RowResult.skipped := by
    simp only [processRow]
    by_cases c1 : (row = [] ∨ (row.all fun cell => strip cell = "") = true)
    · rw [if_pos c1]
    · rw [if_neg c1]
      by_cases c2 : row.length < 4
      · rw [if_pos c2]
      · rw [if_neg c2]
        rw [if_pos ?_]
        rcases h with h | h | h | h | h | h
        · exact absurd (Or.inr h) c1
        · exact absurd h c2
        · exact Or.inl h
        · exact Or.inr (Or.inl h)
        · exact Or.inr (Or.inr (Or.inl h))
        · exact Or.inr (Or.inr (Or.inr h))
  simp only [importRows, hskip]

/-- C8 witness: a row with only 3 fields is skipped and the import proceeds
as if it were absent. -/
theorem import_skips_malformed_witness :
    ((["2025-10-01", "Доход", "X"].all fun cell => strip cell = "") = true ∨
      (["2025-10-01", "Доход", "X"] : List String).length < 4 ∨
      strip (["2025-10-01", "Доход", "X"].getD 0 "") = "" ∨
      strip (["2025-10-01", "Доход", "X"].getD 1 "") = "" ∨
      strip (["2025-10-01", "Доход", "X"].getD 2 "") = "" ∨
      strip (["2025-10-01", "Доход", "X"].getD 3 "") = "") ∧
    importRows 1 (["2025-10-01", "Доход", "X"] :: []) emptyDB 0 =
      importRows 1 [] emptyDB 0 :=
  ⟨by decide,
    import_skips_malformed 1 emptyDB ["2025-10-01", "Доход", "X"] [] 0 (by decide)⟩

/-- C9: when the importer reaches a non-skipped data row, it fails with the
unrecognized-type error exactly on type labels other than the two known ones:
with an unknown trimmed type label the whole import aborts with
`unrecognizedType` carrying that label, and with either known label the
row's processing never produces an `unrecognizedType` failure. -/
theorem import_unrecognized_type (u : Nat) (db : DB) (row : List String)
    (rest : List (List String)) (count : Nat)
    (hblank : ¬(row = [] ∨ (row.all fun cell => strip cell = "") = true))
    (hlen : ¬row.length < 4)
    (hfields : ¬(strip (row.getD 0 "") = "" ∨ strip (row.getD 1 "") = "" ∨
      strip (row.getD 2 "") = "" ∨ strip (row.getD 3 "") = "")) :
    (strip (row.getD 1 "") ≠ "Доход" → strip (row.getD 1 "") ≠ "Расход" →
      importRows u (row :: rest) db count =
        Except.error (ImportError.unrecognizedType (strip (row.getD 1 "")))) ∧
    ((strip (row.getD 1 "") = "Доход" ∨ strip (row.getD 1 "") = "Расход") →
      (processRow u db row).isUnrecognizedType = false) := by
  constructor
  · intro hni hne
    have hpr : processRow u db row =
        RowResult.failed (ImportError.unrecognizedType (strip (row.getD 1 ""))) := by
      simp only [processRow]
      rw [if_neg hblank, if_neg hlen, if_neg hfields, if_neg hni, if_neg hne]
    simp only [importRows, hpr]
  · intro hlab
    simp only [processRow]
    rw [if_neg hblank, if_neg hlen, if_neg hfields]
    rcases hlab with hl | hl
    · rw [hl, if_pos rfl]
      cases parseAmount (strip (row.getD 3 "")) <;>
        cases parseDate (strip (row.getD 0 "")) <;> rfl
    · rw [hl, if_neg (by decide), if_pos rfl]
      cases parseAmount (strip (row.getD 3 "")) <;>
        cases parseDate (strip (row.getD 0 "")) <;> rfl

/-- C9 witness at the row `2025-10-01,Transfer,X,5`: the import aborts with
the unrecognized-type error for "Transfer", while the same row with type
"Доход" produces no such failure. -/
theorem import_unrecognized_type_witness :
    ¬((["2025-10-01", "Transfer", "X", "5"] : List String) = [] ∨
      ((["2025-10-01", "Transfer", "X", "5"] : List String).all
        fun cell => strip cell = "") = true) ∧
    ¬(["2025-10-01", "Transfer", "X", "5"] : List String).length < 4 ∧
    ¬(strip (["2025-10-01", "Transfer", "X", "5"].getD 0 "") = "" ∨
      strip (["2025-10-01", "Transfer", "X", "5"].getD 1 "") = "" ∨
      strip (["2025-10-01", "Transfer", "X", "5"].getD 2 "") = "" ∨
      strip (["2025-10-01", "Transfer", "X", "5"].getD 3 "") = "") ∧
    importRows 1 (["2025-10-01", "Transfer", "X", "5"] :: []) emptyDB 0 =
      Except.error (ImportError.unrecognizedType
        (strip (["2025-10-01", "Transfer", "X", "5"].getD 1 ""))) :=
  ⟨by decide, by decide, by decide,
    (import_unrecognized_type 1 emptyDB ["2025-10-01", "Transfer", "X", "5"] [] 0
      (by decide) (by decide) (by decide)).1 (by decide) (by decide)⟩

/-- C10: the importer performs no positivity check on the amount.  For every
non-skipped row with a known type label whose amount and date parse, it
inserts a transaction carrying exactly the parsed amount — zero and negative
amounts included, since `a` here is arbitrary — counts it as successful
(count + 1), even though `TransactionForm.clean_amount` rejects any
non-positive amount. -/
theorem import_no_positivity_check (u : Nat) (db : DB) (row : List String)
    (rest : List (List String)) (count : Nat) (a : ℚ) (d : PDate) (ct : CatType)
    (hblank : ¬(row = [] ∨ (row.all fun cell => strip cell = "") = true))
    (hlen : ¬row.length < 4)
    (hfields : ¬(strip (row.getD 0 "") = "" ∨ strip (row.getD 1 "") = "" ∨
      strip (row.getD 2 "") = "" ∨ strip (row.getD 3 "") = ""))
    (hct : (if strip (row.getD 1 "") = "Доход" then some CatType.income
      else if strip (row.getD 1 "") = "Расход" then some CatType.expense
      else none) = some ct)
    (ha : parseAmount (strip (row.getD 3 "")) = some a)
    (hd : parseDate (strip (row.getD 0 "")) = some d) :
    processRow u db row = RowResult.inserted
      { (get_or_create_category db (strip (row.getD 2 "")) ct u).1 with
        transactions :=
          (get_or_create_category db (strip (row.getD 2 "")) ct u).1.transactions ++
            [⟨u, a, (get_or_create_category db (strip (row.getD 2 "")) ct u).2,
              (if 4 < row.length then strip (row.getD 4 "") else ""), d⟩] } ∧
    importRows u (row :: rest) db count =
      importRows u rest
        { (get_or_create_category db (strip (row.getD 2 "")) ct u).1 with
          transactions :=
            (get_or_create_category db (strip (row.getD 2 "")) ct u).1.transactions ++
              [⟨u, a, (get_or_create_category db (strip (row.getD 2 "")) ct u).2,
                (if 4 < row.length then strip (row.getD 4 "") else ""), d⟩] }
        (count + 1) ∧
    (a ≤ 0 → clean_amount_accepts a = false) := by
  have hpr : processRow u db row = RowResult.inserted
      { (get_or_create_category db (strip (row.getD 2 "")) ct u).1 with
        transactions :=
          (get_or_create_category db (strip (row.getD 2 "")) ct u).1.transactions ++
            [⟨u, a, (get_or_create_category db (strip (row.getD 2 "")) ct u).2,
              (if 4 < row.length then strip (row.getD 4 "") else ""), d⟩] } := by
    simp only [processRow]
    rw [if_neg hblank, if_neg hlen, if_neg hfields, hct, ha, hd]
  refine ⟨hpr, by simp only [importRows, hpr], ?_⟩
  intro hle
  unfold clean_amount_accepts
  simp only [decide_eq_false_iff_not, not_lt]
  exact hle

/-- C10 witness: the row `2025-10-01,Расход,Food,-5.00,` with its negative
amount is inserted with amount exactly `-5` and counted, while the
transaction form rejects `-5`. -/
theorem import_no_positivity_check_witness :
    ¬((["2025-10-01", "Расход", "Food", "-5.00", ""] : List String) = [] ∨
      ((["2025-10-01", "Расход", "Food", "-5.00", ""] : List String).all
        fun cell => strip cell = "") = true) ∧
    ¬(["2025-10-01", "Расход", "Food", "-5.00", ""] : List String).length < 4 ∧
    parseAmount (strip (["2025-10-01", "Расход", "Food", "-5.00", ""].getD 3 "")) =
      some (-5 : ℚ) ∧
    processRow 1 emptyDB ["2025-10-01", "Расход", "Food", "-5.00", ""] =
      RowResult.inserted
        { (get_or_create_category emptyDB
            (strip (["2025-10-01", "Расход", "Food", "-5.00", ""].getD 2 ""))
            CatType.expense 1).1 with
          transactions :=
            (get_or_create_category emptyDB
              (strip (["2025-10-01", "Расход", "Food", "-5.00", ""].getD 2 ""))
              CatType.expense 1).1.transactions ++
              [⟨1, -5, (get_or_create_category emptyDB
                  (strip (["2025-10-01", "Расход", "Food", "-5.00", ""].getD 2 ""))
                  CatType.expense 1).2,
                (if 4 < (["2025-10-01", "Расход", "Food", "-5.00", ""] : List String).length
                  then strip (["2025-10-01", "Расход", "Food", "-5.00", ""].getD 4 "")
                  else ""), ⟨2025, 10, 1⟩⟩] } ∧
    ((-5 : ℚ) ≤ 0 → clean_amount_accepts (-5) = false) := by
  have ha : parseAmount
      (strip (["2025-10-01", "Расход", "Food", "-5.00", ""].getD 3 "")) =
      some (-5 : ℚ) := by
    norm_num +decide [parseAmount, parseUnsignedDecimal, splitDot, strip, stripList,
      pyWhitespace, digitsToNat, digitVal, List.getD,
      show ('5' : Char).toNat = 53 from rfl]
  have hmain := import_no_positivity_check 1 emptyDB
    ["2025-10-01", "Расход", "Food", "-5.00", ""] [] 0 (-5) ⟨2025, 10, 1⟩
    CatType.expense (by decide) (by decide) (by decide) (by decide) ha (by decide)
  exact ⟨by decide, by decide, ha, hmain.1, hmain.2.2⟩

/-! ## C1: digit-string lemmas -/

theorem digitChar_spec (n : Nat) (h : n < 10) :
    (digitChar n).isDigit = true ∧ pyWhitespace (digitChar n) = false ∧
      digitChar n ≠ '-' ∧ digitChar n ≠ '+' ∧ digitChar n ≠ '.' ∧
      digitVal (digitChar n) = n := by
  interval_cases n <;> exact ⟨by decide, by decide, by decide, by decide, by decide, by decide⟩

theorem natToDigitsAux_fuel (n : Nat) : ∀ fuel fuel' : Nat, n < fuel → n < fuel' →
    natToDigitsAux fuel n = natToDigitsAux fuel' n := by
  induction n using Nat.strong_induction_on with
  | _ n ih =>
    intro fuel fuel' hf hf'
    cases fuel with
    | zero => omega
    | succ f =>
      cases fuel' with
      | zero => omega
      | succ f' =>
        unfold natToDigitsAux
        by_cases h10 : n < 10
        · rw [if_pos h10, if_pos h10]
        · rw [if_neg h10, if_neg h10]
          have hlt : n / 10 < n := Nat.div_lt_self (by omega) (by omega)
          rw [ih (n / 10) hlt f f' (by omega) (by omega)]

theorem natToDigits_eq (n : Nat) :
    natToDigits n = if n < 10 then [digitChar n]
      else natToDigits (n / 10) ++ [digitChar (n % 10)] := by
  unfold natToDigits
  rw [natToDigitsAux]
  by_cases h10 : n < 10
  · rw [if_pos h10, if_pos h10]
  · rw [if_neg h10, if_neg h10]
    have hlt : n / 10 < n := Nat.div_lt_self (by omega) (by omega)
    rw [natToDigitsAux_fuel (n / 10) n (n / 10 + 1) hlt (by omega)]

theorem natToDigits_ne_nil (n : Nat) : natToDigits n ≠ [] := by
  rw [natToDigits_eq]
  split <;> simp

theorem natToDigits_mem (n : Nat) :
    ∀ c ∈ natToDigits n, ∃ k, k < 10 ∧ c = digitChar k := by
  induction n using Nat.strong_induction_on with
  | _ n ih =>
    rw [natToDigits_eq]
    by_cases h10 : n < 10
    · rw [if_pos h10]
      intro c hc
      rw [List.mem_singleton] at hc
      exact ⟨n, h10, hc⟩
    · rw [if_neg h10]
      intro c hc
      rw [List.mem_append] at hc
      rcases hc with hc | hc
      · exact ih (n / 10) (Nat.div_lt_self (by omega) (by omega)) c hc
      · rw [List.mem_singleton] at hc
        exact ⟨n % 10, Nat.mod_lt n (by omega), hc⟩

theorem digitsToNat_foldl (l : List Char) : ∀ acc : Nat,
    l.foldl (fun a c => a * 10 + digitVal c) acc =
      acc * 10 ^ l.length + digitsToNat l := by
  induction l with
  | nil => intro acc; simp [digitsToNat]
  | cons c t ih =>
    intro acc
    have hd : digitsToNat (c :: t) = digitVal c * 10 ^ t.length + digitsToNat t := by
      unfold digitsToNat
      simp only [List.foldl_cons]
      rw [ih (0 * 10 + digitVal c)]
      simp [digitsToNat]
    simp only [List.foldl_cons, hd, List.length_cons]
    rw [ih (acc * 10 + digitVal c)]
    ring

theorem digitsToNat_append (l1 l2 : List Char) :
    digitsToNat (l1 ++ l2) = digitsToNat l1 * 10 ^ l2.length + digitsToNat l2 := by
  unfold digitsToNat
  rw [List.foldl_append]
  exact digitsToNat_foldl l2 _

theorem digitsToNat_singleton (k : Nat) (h : k < 10) :
    digitsToNat [digitChar k] = k := by
  unfold digitsToNat
  simp only [List.foldl_cons, List.foldl_nil, Nat.zero_mul, Nat.zero_add]
  exact (digitChar_spec k h).2.2.2.2.2

theorem digitsToNat_natToDigits (n : Nat) : digitsToNat (natToDigits n) = n := by
  induction n using Nat.strong_induction_on with
  | _ n ih =>
    rw [natToDigits_eq]
    by_cases h10 : n < 10
    · rw [if_pos h10]
      exact digitsToNat_singleton n h10
    · rw [if_neg h10]
      rw [digitsToNat_append, ih (n / 10) (Nat.div_lt_self (by omega) (by omega)),
        digitsToNat_singleton (n % 10) (Nat.mod_lt n (by omega))]
      simp only [List.length_singleton]
      omega

theorem natToDigits_four (y : Nat) (h1 : 1000 ≤ y) (h2 : y ≤ 9999) :
    natToDigits y = [digitChar (y / 1000), digitChar (y / 100 % 10),
      digitChar (y / 10 % 10), digitChar (y % 10)] := by
  rw [natToDigits_eq, if_neg (by omega),
    natToDigits_eq, if_neg (by omega),
    natToDigits_eq, if_neg (by omega),
    natToDigits_eq, if_pos (by omega)]
  have e1 : y / 10 / 10 / 10 = y / 1000 := by
    rw [Nat.div_div_eq_div_mul, Nat.div_div_eq_div_mul]
  have e2 : y / 10 / 10 = y / 100 := by rw [Nat.div_div_eq_div_mul]
  rw [e1, e2]
  simp

theorem pad2_eq (n : Nat) (h : n ≤ 99) :
    pad2 n = [digitChar (n / 10), digitChar (n % 10)] := by
  unfold pad2
  by_cases h10 : n < 10
  · rw [if_pos h10]
    have e1 : n / 10 = 0 := by omega
    have e2 : n % 10 = n := by omega
    rw [e1, e2, show '0' = digitChar 0 from by decide]
  · rw [if_neg h10]
    rw [natToDigits_eq, if_neg h10, natToDigits_eq, if_pos (by omega)]
    rfl

theorem pad2_mem (n : Nat) (h : n ≤ 99) :
    ∀ c ∈ pad2 n, ∃ k, k < 10 ∧ c = digitChar k := by
  rw [pad2_eq n h]
  intro c hc
  simp only [List.mem_cons, List.not_mem_nil, or_false] at hc
  rcases hc with hc | hc
  · exact ⟨n / 10, by omega, hc⟩
  · exact ⟨n % 10, Nat.mod_lt n (by omega), hc⟩

theorem digitsToNat_pad2 (n : Nat) (h : n ≤ 99) : digitsToNat (pad2 n) = n := by
  rw [pad2_eq n h, show [digitChar (n / 10), digitChar (n % 10)] =
    [digitChar (n / 10)] ++ [digitChar (n % 10)] from rfl, digitsToNat_append,
    digitsToNat_singleton (n / 10) (by omega),
    digitsToNat_singleton (n % 10) (Nat.mod_lt n (by omega))]
  simp only [List.length_singleton]
  omega

/-! ## C1: strip and date lemmas -/

theorem dropWhile_eq_self_of (p : Char → Bool) (l : List Char)
    (h : ∀ c ∈ l, p c = false) : l.dropWhile p = l := by
  cases l with
  | nil => rfl
  | cons c t =>
    rw [List.dropWhile_cons, h c (List.mem_cons_self c t)]
    simp

theorem stripList_eq_self (l : List Char) (h : ∀ c ∈ l, pyWhitespace c = false) :
    stripList l = l := by
  unfold stripList
  rw [dropWhile_eq_self_of _ _ h,
    dropWhile_eq_self_of _ _ (fun c hc => h c (List.mem_reverse.mp hc)),
    List.reverse_reverse]

theorem strip_mk_eq_self (l : List Char) (h : ∀ c ∈ l, pyWhitespace c = false) :
    strip (String.mk l) = String.mk l := by
  unfold strip
  rw [show (String.mk l).toList = l from rfl, stripList_eq_self l h]

theorem mk_ne_empty (l : List Char) (h : l ≠ []) : String.mk l ≠ "" := by
  intro hc
  apply h
  have hdata := congrArg String.data hc
  simpa using hdata

theorem pad2_mem_digit (n : Nat) : ∀ c ∈ pad2 n, ∃ k, k < 10 ∧ c = digitChar k := by
  unfold pad2
  by_cases h10 : n < 10
  · rw [if_pos h10]
    intro c hc
    simp only [List.mem_cons, List.not_mem_nil, or_false] at hc
    rcases hc with hc | hc
    · exact ⟨0, by omega, by rw [hc]; decide⟩
    · exact ⟨n, h10, hc⟩
  · rw [if_neg h10]
    exact natToDigits_mem n

theorem formatDate_chars (d : PDate) :
    ∀ c ∈ (formatDate d).toList, pyWhitespace c = false := by
  intro c hc
  rw [show (formatDate d).toList =
    natToDigits d.year ++ '-' :: (pad2 d.month ++ '-' :: pad2 d.day) from rfl] at hc
  simp only [List.mem_append, List.mem_cons] at hc
  rcases hc with hc | hc | hc | hc | hc
  · obtain ⟨k, hk, he⟩ := natToDigits_mem d.year c hc
    rw [he]
    exact (digitChar_spec k hk).2.1
  · rw [hc]; decide
  · obtain ⟨k, hk, he⟩ := pad2_mem_digit d.month c hc
    rw [he]
    exact (digitChar_spec k hk).2.1
  · rw [hc]; decide
  · obtain ⟨k, hk, he⟩ := pad2_mem_digit d.day c hc
    rw [he]
    exact (digitChar_spec k hk).2.1

theorem strip_formatDate (d : PDate) : strip (formatDate d) = formatDate d :=
  strip_mk_eq_self _ (formatDate_chars d)

theorem formatDate_ne_empty (d : PDate) : formatDate d ≠ "" := by
  apply mk_ne_empty
  intro hc
  rw [List.append_eq_nil] at hc
  exact natToDigits_ne_nil d.year hc.1

theorem parseDate_formatDate (d : PDate) (hv : ValidDate d)
    (hy1 : 1000 ≤ d.year) (hy2 : d.year ≤ 9999) :
    parseDate (formatDate d) = some d := by
  obtain ⟨hm1, hm2, hd1, hd2⟩ := hv
  have h31 := daysInMonth_le_31 d.year d.month
  have hmle : d.month ≤ 99 := by omega
  have hdle : d.day ≤ 99 := by omega
  have htl : (formatDate d).toList =
      [digitChar (d.year / 1000), digitChar (d.year / 100 % 10),
       digitChar (d.year / 10 % 10), digitChar (d.year % 10), '-',
       digitChar (d.month / 10), digitChar (d.month % 10), '-',
       digitChar (d.day / 10), digitChar (d.day % 10)] := by
    rw [show (formatDate d).toList =
      natToDigits d.year ++ '-' :: (pad2 d.month ++ '-' :: pad2 d.day) from rfl]
    rw [natToDigits_four d.year hy1 hy2, pad2_eq d.month hmle, pad2_eq d.day hdle]
    rfl
  have hyv : digitsToNat [digitChar (d.year / 1000), digitChar (d.year / 100 % 10),
      digitChar (d.year / 10 % 10), digitChar (d.year % 10)] = d.year := by
    unfold digitsToNat
    simp only [List.foldl_cons, List.foldl_nil]
    rw [(digitChar_spec (d.year / 1000) (by omega)).2.2.2.2.2,
      (digitChar_spec (d.year / 100 % 10) (by omega)).2.2.2.2.2,
      (digitChar_spec (d.year / 10 % 10) (by omega)).2.2.2.2.2,
      (digitChar_spec (d.year % 10) (by omega)).2.2.2.2.2]
    omega
  have hmv : digitsToNat [digitChar (d.month / 10), digitChar (d.month % 10)] =
      d.month := by
    unfold digitsToNat
    simp only [List.foldl_cons, List.foldl_nil]
    rw [(digitChar_spec (d.month / 10) (by omega)).2.2.2.2.2,
      (digitChar_spec (d.month % 10) (by omega)).2.2.2.2.2]
    omega
  have hdv : digitsToNat [digitChar (d.day / 10), digitChar (d.day % 10)] =
      d.day := by
    unfold digitsToNat
    simp only [List.foldl_cons, List.foldl_nil]
    rw [(digitChar_spec (d.day / 10) (by omega)).2.2.2.2.2,
      (digitChar_spec (d.day % 10) (by omega)).2.2.2.2.2]
    omega
  simp only [parseDate, htl]
  rw [if_pos (by exact ⟨rfl, rfl, rfl⟩)]
  simp only [List.getD_cons_zero, List.getD_cons_succ]
  rw [if_pos ?hdig]
  case hdig =>
    rw [List.all_eq_true]
    intro c hc
    have hd' : ∃ k, k < 10 ∧ c = digitChar k := by
      simp only [List.mem_append, List.mem_cons, List.not_mem_nil, or_false] at hc
      rcases hc with ((hc | hc | hc | hc) | hc | hc) | hc | hc
      · exact ⟨d.year / 1000, by omega, hc⟩
      · exact ⟨d.year / 100 % 10, by omega, hc⟩
      · exact ⟨d.year / 10 % 10, by omega, hc⟩
      · exact ⟨d.year % 10, by omega, hc⟩
      · exact ⟨d.month / 10, by omega, hc⟩
      · exact ⟨d.month % 10, by omega, hc⟩
      · exact ⟨d.day / 10, by omega, hc⟩
      · exact ⟨d.day % 10, by omega, hc⟩
    obtain ⟨k, hk, he⟩ := hd'
    rw [he]
    exact (digitChar_spec k hk).1
  rw [hyv, hmv, hdv]
  rw [if_pos ⟨by omega, hm1, hm2, hd1, hd2⟩]

/-! ## C1: amount lemmas -/

theorem natToDigits_head (n : Nat) :
    ∃ k t, k < 10 ∧ natToDigits n = digitChar k :: t := by
  induction n using Nat.strong_induction_on with
  | _ n ih =>
    rw [natToDigits_eq]
    by_cases h10 : n < 10
    · rw [if_pos h10]
      exact ⟨n, [], h10, rfl⟩
    · rw [if_neg h10]
      obtain ⟨k, t, hk, he⟩ := ih (n / 10) (Nat.div_lt_self (by omega) (by omega))
      exact ⟨k, t ++ [digitChar (n % 10)], hk, by rw [he]; rfl⟩

theorem splitDot_append (ip fp : List Char) (hip : ∀ c ∈ ip, c ≠ '.')
    (hfp : ∀ c ∈ fp, c ≠ '.') : splitDot (ip ++ '.' :: fp) = some (ip, fp) := by
  induction ip with
  | nil =>
    show splitDot ('.' :: fp) = some ([], fp)
    unfold splitDot
    rw [if_pos rfl]
    have hany : fp.any (fun x => decide (x = '.')) = false := by
      rw [List.any_eq_false]
      intro x hx
      simp only [decide_eq_true_eq]
      exact hfp x hx
    rw [hany]
    simp
  | cons c t ih =>
    show splitDot (c :: (t ++ '.' :: fp)) = some (c :: t, fp)
    unfold splitDot
    rw [if_neg (hip c (List.mem_cons_self c t))]
    rw [ih (fun x hx => hip x (List.mem_cons_of_mem c hx))]

theorem parseUnsignedDecimal_digits (A B : Nat) (hB : B ≤ 99) :
    parseUnsignedDecimal (natToDigits A ++ '.' :: pad2 B) =
      some (((A * 100 + B : Nat) : ℚ) / 100) := by
  have hip : ∀ c ∈ natToDigits A, c ≠ '.' := by
    intro c hc
    obtain ⟨k, hk, he⟩ := natToDigits_mem A c hc
    rw [he]
    exact (digitChar_spec k hk).2.2.2.2.1
  have hfp : ∀ c ∈ pad2 B, c ≠ '.' := by
    intro c hc
    obtain ⟨k, hk, he⟩ := pad2_mem_digit B c hc
    rw [he]
    exact (digitChar_spec k hk).2.2.2.2.1
  unfold parseUnsignedDecimal
  rw [splitDot_append _ _ hip hfp]
  dsimp only
  have hdig : ((natToDigits A ++ pad2 B).all Char.isDigit) = true := by
    rw [List.all_eq_true]
    intro c hc
    rw [List.mem_append] at hc
    rcases hc with hc | hc
    · obtain ⟨k, hk, he⟩ := natToDigits_mem A c hc
      rw [he]
      exact (digitChar_spec k hk).1
    · obtain ⟨k, hk, he⟩ := pad2_mem_digit B c hc
      rw [he]
      exact (digitChar_spec k hk).1
  have hne : natToDigits A ++ pad2 B ≠ [] := by
    intro hcon
    rw [List.append_eq_nil] at hcon
    exact natToDigits_ne_nil A hcon.1
  rw [if_pos ⟨hdig, hne⟩]
  rw [digitsToNat_append, digitsToNat_natToDigits, digitsToNat_pad2 B hB,
    pad2_eq B hB]
  norm_num

theorem parseAmount_formatCents (c : ℤ) :
    parseAmount (String.mk (formatCents c)) = some ((c : ℚ) / 100) := by
  have hmod : c.natAbs % 100 ≤ 99 := by omega
  have hsplit : (c.natAbs / 100) * 100 + c.natAbs % 100 = c.natAbs := by omega
  by_cases hneg : c < 0
  · have hshape : formatCents c =
        '-' :: (natToDigits (c.natAbs / 100) ++ '.' :: pad2 (c.natAbs % 100)) := by
      unfold formatCents
      rw [if_pos hneg]
      rfl
    show parseAmount (String.mk (formatCents c)) = _
    unfold parseAmount
    rw [show (String.mk (formatCents c)).toList = formatCents c from rfl, hshape]
    dsimp only
    rw [if_pos rfl]
    rw [parseUnsignedDecimal_digits (c.natAbs / 100) (c.natAbs % 100) hmod]
    rw [Option.map_some']
    congr 1
    rw [hsplit]
    have h1 : ((c.natAbs : Nat) : ℚ) = -(c : ℚ) := by
      rw [Int.cast_natAbs]
      exact_mod_cast abs_of_neg hneg
    rw [h1]
    ring
  · have hshape : formatCents c =
        natToDigits (c.natAbs / 100) ++ '.' :: pad2 (c.natAbs % 100) := by
      unfold formatCents
      rw [if_neg hneg]
      rfl
    obtain ⟨k, t, hk, he⟩ := natToDigits_head (c.natAbs / 100)
    have hshape2 : formatCents c =
        digitChar k :: (t ++ '.' :: pad2 (c.natAbs % 100)) := by
      rw [hshape, he]
      rfl
    unfold parseAmount
    rw [show (String.mk (formatCents c)).toList = formatCents c from rfl, hshape2]
    dsimp only
    rw [if_neg ((digitChar_spec k hk).2.2.1), if_neg ((digitChar_spec k hk).2.2.2.1)]
    rw [show digitChar k :: (t ++ '.' :: pad2 (c.natAbs % 100)) =
      natToDigits (c.natAbs / 100) ++ '.' :: pad2 (c.natAbs % 100) from by rw [he]; rfl]
    rw [parseUnsignedDecimal_digits (c.natAbs / 100) (c.natAbs % 100) hmod]
    congr 1
    rw [hsplit]
    have h1 : ((c.natAbs : Nat) : ℚ) = (c : ℚ) := by
      rw [Int.cast_natAbs]
      exact_mod_cast abs_of_nonneg (Int.not_lt.mp hneg)
    rw [h1]

theorem parseAmount_formatAmount (q : ℚ) (h : (100 * q).den = 1) :
    parseAmount (formatAmount q) = some q := by
  unfold formatAmount
  rw [parseAmount_formatCents ((100 * q).num)]
  congr 1
  have h3 : (((100 * q).num : ℤ) : ℚ) = 100 * q := (Rat.den_eq_one_iff (100 * q)).mp h
  rw [h3]
  ring

theorem formatAmount_chars (q : ℚ) :
    ∀ c ∈ (formatAmount q).toList, pyWhitespace c = false := by
  intro c hc
  rw [show (formatAmount q).toList = formatCents ((100 * q).num) from rfl] at hc
  unfold formatCents at hc
  split at hc
  · simp only [List.cons_append, List.nil_append, List.mem_cons, List.mem_append] at hc
    rcases hc with hc | hc | hc | hc
    · rw [hc]; decide
    · obtain ⟨k, hk, he⟩ := natToDigits_mem _ c hc
      rw [he]
      exact (digitChar_spec k hk).2.1
    · rw [hc]; decide
    · obtain ⟨k, hk, he⟩ := pad2_mem_digit _ c hc
      rw [he]
      exact (digitChar_spec k hk).2.1
  · simp only [List.nil_append, List.mem_append, List.mem_cons] at hc
    rcases hc with hc | hc | hc
    · obtain ⟨k, hk, he⟩ := natToDigits_mem _ c hc
      rw [he]
      exact (digitChar_spec k hk).2.1
    · rw [hc]; decide
    · obtain ⟨k, hk, he⟩ := pad2_mem_digit _ c hc
      rw [he]
      exact (digitChar_spec k hk).2.1

theorem strip_formatAmount (q : ℚ) : strip (formatAmount q) = formatAmount q :=
  strip_mk_eq_self _ (formatAmount_chars q)

theorem formatAmount_ne_empty (q : ℚ) : formatAmount q ≠ "" := by
  apply mk_ne_empty
  intro hcon
  unfold formatCents at hcon
  rw [List.append_eq_nil, List.append_eq_nil] at hcon
  exact List.cons_ne_nil _ _ hcon.2

/-! ## C1: the round trip itself -/

theorem pyOr_empty (s : String) : pyOr s "" = s := by
  unfold pyOr
  split
  · rename_i h
    rw [h]
  · rfl

theorem get_or_create_category_spec (db : DB) (name : String) (ty : CatType)
    (u : Nat) :
    (get_or_create_category db name ty u).2 = ⟨name, ty, u⟩ ∧
    (get_or_create_category db name ty u).1.transactions = db.transactions := by
  unfold get_or_create_category
  cases hf : db.categories.find? (fun c =>
      decide (c.name = name ∧ c.ctype = ty ∧ c.user = u)) with
  | none => simp [hf]
  | some c0 =>
    simp only [hf]
    have hk := List.find?_some hf
    rw [decide_eq_true_eq] at hk
    obtain ⟨h1, h2, h3⟩ := hk
    refine ⟨?_, by simp⟩
    show c0 = _
    calc c0 = ⟨c0.name, c0.ctype, c0.user⟩ := rfl
    _ = ⟨name, ty, u⟩ := by rw [h1, h2, h3]

theorem strip_typeLabel (ct : CatType) : strip (typeLabel ct) = typeLabel ct := by
  cases ct <;> decide

theorem typeLabel_ne_empty (ct : CatType) : typeLabel ct ≠ "" := by
  cases ct <;> decide

theorem typeLabel_chain (ct : CatType) :
    (if typeLabel ct = "Доход" then some CatType.income
      else if typeLabel ct = "Расход" then some CatType.expense
      else none) = some ct := by
  cases ct <;> decide

theorem processRow_exportRow (u2 : Nat) (db : DB) (t : Transaction)
    (ht : exportableTx t = true) :
    processRow u2 db (exportRow t) = RowResult.inserted
      { (get_or_create_category db t.category.name t.category.ctype u2).1 with
        transactions := db.transactions ++ [reimportedTx u2 t] } := by
  unfold exportableTx at ht
  rw [decide_eq_true_eq] at ht
  obtain ⟨hvd, hy1, hy2, hden, hname, hnamene, hdesc⟩ := ht
  have hdesc' : strip (pyOr t.description "") = t.description := by
    rw [pyOr_empty]
    exact hdesc
  simp only [processRow, exportRow]
  simp only [List.getD_cons_zero, List.getD_cons_succ]
  rw [if_neg ?hc1]
  case hc1 =>
    intro hcon
    rcases hcon with hcon | hcon
    · exact List.cons_ne_nil _ _ hcon
    · rw [List.all_eq_true] at hcon
      have hh := hcon (formatDate t.date) (List.mem_cons_self _ _)
      rw [decide_eq_true_eq, strip_formatDate] at hh
      exact formatDate_ne_empty t.date hh
  rw [if_neg (show ¬([formatDate t.date, typeLabel t.category.ctype,
    t.category.name, formatAmount t.amount, pyOr t.description ""].length < 4)
    from by simp)]
  simp only [strip_formatDate, strip_typeLabel, hname, strip_formatAmount, hdesc']
  rw [if_neg ?hc3]
  case hc3 =>
    intro hcon
    rcases hcon with hcon | hcon | hcon | hcon
    · exact formatDate_ne_empty t.date hcon
    · exact typeLabel_ne_empty t.category.ctype hcon
    · exact hnamene hcon
    · exact formatAmount_ne_empty t.amount hcon
  rw [typeLabel_chain]
  dsimp only
  rw [parseAmount_formatAmount t.amount hden,
    parseDate_formatDate t.date hvd hy1 hy2]
  dsimp only
  rw [(get_or_create_category_spec db t.category.name t.category.ctype u2).2]
  rw [(get_or_create_category_spec db t.category.name t.category.ctype u2).1]
  rfl

theorem importRows_export (u2 : Nat) :
    ∀ ts : List Transaction, (∀ t ∈ ts, exportableTx t = true) →
    ∀ (db : DB) (count : Nat),
      ∃ db' : DB,
        importRows u2 (ts.map exportRow) db count =
          Except.ok (db', count + ts.length) ∧
        db'.transactions = db.transactions ++ ts.map (reimportedTx u2)
  | [], _, db, count => ⟨db, by simp [importRows], by simp⟩
  | t :: ts, hts, db, count => by
    obtain ⟨db', hok, htx⟩ := importRows_export u2 ts
      (fun x hx => hts x (List.mem_cons_of_mem t hx))
      { (get_or_create_category db t.category.name t.category.ctype u2).1 with
        transactions := db.transactions ++ [reimportedTx u2 t] } (count + 1)
    refine ⟨db', ?_, ?_⟩
    · simp only [List.map_cons, importRows,
        processRow_exportRow u2 db t (hts t (List.mem_cons_self t ts))]
      rw [hok]
      simp only [List.length_cons]
      rw [show count + 1 + ts.length = count + (ts.length + 1) from by omega]
    · rw [htx]
      simp [List.append_assoc]

/-- C1 (amended): provided every transaction of the exporting user is
export-clean — a valid date with four-digit year, a scale-2 decimal amount,
a nonempty whitespace-trimmed category name and a whitespace-trimmed
description, which is what the app's own forms and importer create — the
export/import round trip into an empty account succeeds and reproduces the
same multiset of `(date, type, category, amount, description)` tuples, each
category keeping its income/expense type. -/
theorem export_import_round_trip (db : DB) (u u2 : Nat)
    (hwf : (db.transactions.filter (fun t => decide (t.user = u))).all
      exportableTx = true) :
    importSucceeds (import_transactions_from_csv
      (export_transactions_to_csv db u) u2 emptyDB) = true ∧
    importedTuples (import_transactions_from_csv
        (export_transactions_to_csv db u) u2 emptyDB) =
      (((db.transactions.filter (fun t => decide (t.user = u))).map txTuple :
        List _) : Multiset _) := by
  rw [List.all_eq_true] at hwf
  have hperm : (List.insertionSort (fun a b : Transaction => dateLe b.date a.date)
      (db.transactions.filter (fun t => decide (t.user = u)))).Perm
      (db.transactions.filter (fun t => decide (t.user = u))) :=
    List.perm_insertionSort _ _
  have hmem : ∀ t ∈ List.insertionSort (fun a b : Transaction => dateLe b.date a.date)
      (db.transactions.filter (fun t => decide (t.user = u))),
      exportableTx t = true :=
    fun t ht => hwf t (hperm.mem_iff.mp ht)
  obtain ⟨db', hok, htx⟩ := importRows_export u2 _ hmem emptyDB 0
  have himp : import_transactions_from_csv (export_transactions_to_csv db u) u2
      emptyDB = Except.ok (db',
        0 + (List.insertionSort (fun a b : Transaction => dateLe b.date a.date)
          (db.transactions.filter (fun t => decide (t.user = u)))).length) := by
    simp only [export_transactions_to_csv, import_transactions_from_csv]
    exact hok
  rw [himp]
  refine ⟨rfl, ?_⟩
  unfold importedTuples
  dsimp only
  rw [htx]
  rw [show emptyDB.transactions = ([] : List Transaction) from rfl]
  rw [List.nil_append, List.map_map,
    show txTuple ∘ reimportedTx u2 = txTuple from funext fun t => rfl]
  rw [Multiset.coe_eq_coe]
  exact hperm.map txTuple

/-- C1 witness: the example account (trimmed names and descriptions, scale-2
amounts) round-trips into a fresh account owned by user 2. -/
theorem export_import_round_trip_witness :
    (exampleDB.transactions.filter (fun t => decide (t.user = 1))).all
      exportableTx = true ∧
    importSucceeds (import_transactions_from_csv
      (export_transactions_to_csv exampleDB 1) 2 emptyDB) = true ∧
    importedTuples (import_transactions_from_csv
        (export_transactions_to_csv exampleDB 1) 2 emptyDB) =
      (((exampleDB.transactions.filter (fun t => decide (t.user = 1))).map txTuple :
        List _) : Multiset _) := by
  have d1 : ((100 : ℚ) * 50000).den = 1 := by
    rw [show (100 : ℚ) * 50000 = ((5000000 : ℤ) : ℚ) from by norm_num]
    exact Rat.den_intCast _
  have d2 : ((100 : ℚ) * 1000).den = 1 := by
    rw [show (100 : ℚ) * 1000 = ((100000 : ℤ) : ℚ) from by norm_num]
    exact Rat.den_intCast _
  have d3 : ((100 : ℚ) * 500).den = 1 := by
    rw [show (100 : ℚ) * 500 = ((50000 : ℤ) : ℚ) from by norm_num]
    exact Rat.den_intCast _
  have hwf : (exampleDB.transactions.filter (fun t => decide (t.user = 1))).all
      exportableTx = true := by
    rw [List.all_eq_true]
    intro t ht
    rw [show exampleDB.transactions.filter (fun t => decide (t.user = 1)) =
      exampleDB.transactions from rfl] at ht
    simp only [exampleDB, List.mem_cons, List.not_mem_nil, or_false] at ht
    rcases ht with h | h | h <;> subst h <;>
      (unfold exportableTx; rw [decide_eq_true_eq])
    · exact ⟨by decide, by decide, by decide, d1, by decide, by decide, by decide⟩
    · exact ⟨by decide, by decide, by decide, d2, by decide, by decide, by decide⟩
    · exact ⟨by decide, by decide, by decide, d3, by decide, by decide, by decide⟩
  exact ⟨hwf, export_import_round_trip exampleDB 1 2 hwf⟩

/-- C1 counterexample: the account `rtCounterDB` holds one transaction whose
description is `" x "`; the round trip strips it to `"x"`, so the multiset of
tuples is not reproduced and the claim as stated fails. -/
theorem round_trip_counterexample :
    ¬(importedTuples (import_transactions_from_csv
        (export_transactions_to_csv rtCounterDB 1) 1 emptyDB) =
      (((rtCounterDB.transactions.filter (fun t => decide (t.user = 1))).map
        txTuple : List _) : Multiset _)) := by
  have hfa : formatAmount 5 = "5.00" := by
    unfold formatAmount
    rw [show ((100 : ℚ) * 5).num = 500 from by
      rw [show (100 : ℚ) * 5 = ((500 : ℤ) : ℚ) from by norm_num, Rat.num_intCast]]
    decide
  have hexp : export_transactions_to_csv rtCounterDB 1 =
      [["Дата", "Тип", "Категория", "Сумма", "Описание"],
       ["2025-10-05", "Расход", "Food", "5.00", " x "]] := by
    unfold export_transactions_to_csv
    rw [show rtCounterDB.transactions.filter (fun t => decide (t.user = 1)) =
      rtCounterDB.transactions from rfl]
    rw [show List.insertionSort (fun a b : Transaction => dateLe b.date a.date)
      rtCounterDB.transactions = rtCounterDB.transactions from rfl]
    simp only [rtCounterDB, List.map_cons, List.map_nil, exportRow]
    rw [hfa]
    decide
  have hpa : parseAmount (strip "5.00") = some (5 : ℚ) := by
    rw [show strip "5.00" = String.mk (formatCents 500) from by decide]
    rw [parseAmount_formatCents]
    norm_num
  have hrow : processRow 1 emptyDB ["2025-10-05", "Расход", "Food", "5.00", " x "] =
      RowResult.inserted ⟨[⟨"Food", CatType.expense, 1⟩],
        [⟨1, 5, ⟨"Food", CatType.expense, 1⟩, "x", ⟨2025, 10, 5⟩⟩], []⟩ := by
    simp only [processRow]
    rw [if_neg (by decide), if_neg (by decide)]
    simp only [List.getD_cons_zero, List.getD_cons_succ]
    rw [if_neg (by decide)]
    rw [if_neg (by decide), if_pos (by decide)]
    dsimp only
    rw [hpa]
    rw [show parseDate (strip "2025-10-05") = some (⟨2025, 10, 5⟩ : PDate) from
      by decide]
    dsimp only
    rw [show strip "Food" = "Food" from by decide,
      show strip " x " = "x" from by decide]
    rfl
  have himp2 : import_transactions_from_csv
      (export_transactions_to_csv rtCounterDB 1) 1 emptyDB =
      Except.ok (⟨[⟨"Food", CatType.expense, 1⟩],
        [⟨1, 5, ⟨"Food", CatType.expense, 1⟩, "x", ⟨2025, 10, 5⟩⟩], []⟩, 1) := by
    rw [hexp]
    simp only [import_transactions_from_csv, importRows, hrow]
  intro hcon
  rw [himp2] at hcon
  unfold importedTuples at hcon
  dsimp only at hcon
  rw [show (rtCounterDB.transactions.filter (fun t => decide (t.user = 1))).map
      txTuple =
    [((⟨2025, 10, 5⟩, CatType.expense, "Food", (5 : ℚ), " x ") :
      PDate × CatType × String × ℚ × String)] from rfl] at hcon
  rw [show ([⟨1, (5 : ℚ), ⟨"Food", CatType.expense, 1⟩, "x", ⟨2025, 10, 5⟩⟩] :
      List Transaction).map txTuple =
    [((⟨2025, 10, 5⟩, CatType.expense, "Food", (5 : ℚ), "x") :
      PDate × CatType × String × ℚ × String)] from rfl] at hcon
  rw [Multiset.coe_eq_coe, List.singleton_perm_singleton] at hcon
  have hdesc : ("x" : String) = " x " :=
    congrArg (fun p : PDate × CatType × String × ℚ × String => p.2.2.2.2) hcon
  exact absurd hdesc (by decide)

end Kursach
